import Mathlib

/-!
Verification of the quotation-template repository (`content_control_processor.py`,
`final_quotation_server.py`) against its natural-language specification.

The XML documents manipulated by `xml.etree.ElementTree` are shallowly embedded as
rose trees (`Elem`): every element has a tag, an attribute list, an optional text
payload and a list of children.  Namespace-expanded tags such as
`{http://schemas.openxmlformats.org/wordprocessingml/2006/main}sdt` are written with
their conventional prefixes (`w:sdt`, `w15:repeatingSectionItem`, ...); the prefix
string is a faithful stand-in for the expanded name since the Python code only ever
compares tags for equality against these fixed constants.

Numeric cost fields travel through the Python code as JSON numbers (`quantity` an
integer, `unitPrice`/`total` decimals); they are modelled as `ℤ` and `ℚ`.  Python's
`f"{x:.2f}"` formatting is modelled by exact rational rounding to cents
(`fmt2`), which agrees with the float formatting on the exact-cent inputs used here.
-/

mutual
/-- An ElementTree element: tag, attributes, optional `.text`, children.
`ElemList` is an unbundled list of elements so that all recursions over the
tree are plain mutual structural recursions. -/
inductive Elem : Type where
  | mk (tag : String) (attrs : List (String × String)) (text : Option String)
      (children : ElemList) : Elem

/-- Children lists of `Elem` (mutual with `Elem`). -/
inductive ElemList : Type where
  | nil : ElemList
  | cons (e : Elem) (es : ElemList) : ElemList
end

deriving instance DecidableEq for Elem
deriving instance DecidableEq for ElemList

namespace Elem

def tag : Elem → String
  | .mk t _ _ _ => t

def attrs : Elem → List (String × String)
  | .mk _ a _ _ => a

def text : Elem → Option String
  | .mk _ _ x _ => x

def children : Elem → ElemList
  | .mk _ _ _ c => c

/-- `element.get(key)`: attribute lookup. -/
def attr (e : Elem) (key : String) : Option String :=
  (e.attrs.find? (fun p => p.1 = key)).map Prod.snd

end Elem

namespace ElemList

def length : ElemList → Nat
  | .nil => 0
  | .cons _ es => 1 + es.length

def append : ElemList → ElemList → ElemList
  | .nil, l => l
  | .cons e es, l => .cons e (es.append l)

/-- Keep the children satisfying `p`. -/
def filter (p : Elem → Bool) : ElemList → ElemList
  | .nil => .nil
  | .cons e es => if p e then .cons e (es.filter p) else es.filter p

/-- Count the children satisfying `p`. -/
def countP (p : Elem → Bool) : ElemList → Nat
  | .nil => 0
  | .cons e es => (if p e then 1 else 0) + es.countP p

end ElemList

/-- `element.find(tag)`: first direct child with the given tag. -/
def findChildL (t : String) : ElemList → Option Elem
  | .nil => none
  | .cons e es => if e.tag = t then some e else findChildL t es

def Elem.findChild (e : Elem) (t : String) : Option Elem :=
  findChildL t e.children

/-- First direct child with the given tag, together with its index
(used to compute mutation paths). -/
def findChildIdxL (t : String) (i : Nat) : ElemList → Option (Nat × Elem)
  | .nil => none
  | .cons e es => if e.tag = t then some (i, e) else findChildIdxL t (i + 1) es

mutual
/-- Does the subtree rooted at `e` (including `e` itself) contain a node with
tag `t`?  Models `any(True for _ in x.iter(t))`. -/
def hasTagInTree (t : String) : Elem → Bool
  | .mk tg _ _ cs => tg = t || hasTagInTreeL t cs

def hasTagInTreeL (t : String) : ElemList → Bool
  | .nil => false
  | .cons e es => hasTagInTree t e || hasTagInTreeL t es
end

/-! ### OOXML tag constants (namespace-prefixed forms of the expanded names) -/

def wSdt : String := "w:sdt"
def wSdtPr : String := "w:sdtPr"
def wSdtContent : String := "w:sdtContent"
def wAlias : String := "w:alias"
def wTagEl : String := "w:tag"
def wVal : String := "w:val"
def wT : String := "w:t"
def wP : String := "w:p"
def wR : String := "w:r"
def w15RepItem : String := "w15:repeatingSectionItem"

/-! ### Control-name resolution (lines 163-174 and 466-474 of
`content_control_processor.py`; both sites use the identical logic). -/

/-- Python truthiness of the `control_name` variable: `None` and `""` are falsy. -/
def pyFalsy : Option String → Bool
  | none => true
  | some s => s = ""

/-- The alias value on the sdtPr: `alias_elem.get('w:val')` when the alias
element exists, `None` otherwise. -/
def aliasValOf (pr : Elem) : Option String :=
  (pr.findChild wAlias).bind (fun a => a.attr wVal)

/-- The tag value on the sdtPr: `tag_elem.get('w:val')` when the tag element
exists, `None` otherwise. -/
def tagValOf (pr : Elem) : Option String :=
  (pr.findChild wTagEl).bind (fun t => t.attr wVal)

/-- The value of the `name` variable after the alias/tag chain:
`name = alias_elem.get('w:val')` if the alias element exists, else `None`;
then if `not name`, and a tag element exists, `name = tag_elem.get('w:val')`. -/
def pyResolveName (pr : Elem) : Option String :=
  if pyFalsy (aliasValOf pr) then
    match pr.findChild wTagEl with
    | some t => t.attr wVal
    | none => aliasValOf pr
  else aliasValOf pr

/-- The control name the main loop acts on: the resolved name if truthy
(`if control_name:`), otherwise the SDT is not treated as a named control. -/
def effectiveName (pr : Elem) : Option String :=
  match pyResolveName pr with
  | none => none
  | some s => if s = "" then none else some s

/-! ### SDT classification predicates -/

/-- `duplicate_repeating_section` lines 367-374: an SDT whose sdtPr has a
`w:tag` child with `w:val` equal to the section name. -/
def isSectionSdt (name : String) (e : Elem) : Bool :=
  e.tag = wSdt &&
    match e.findChild wSdtPr with
    | none => false
    | some pr =>
        match pr.findChild wTagEl with
        | none => false
        | some t => t.attr wVal = some name

/-- Lines 387-394 and 410-415: an SDT whose sdtPr subtree contains a
`w15:repeatingSectionItem` anywhere (`npr.iter(...)`). -/
def isRepItemSdt (e : Elem) : Bool :=
  e.tag = wSdt &&
    match e.findChild wSdtPr with
    | none => false
    | some pr => hasTagInTreeL w15RepItem pr.children

/-- Lines 146-155 (`is_inside_repeating_section` step at one node): an SDT whose
sdtPr has a `w15:repeatingSectionItem` as a direct child (`pr.find(...)`). -/
def isRepMarkedSdt (e : Elem) : Bool :=
  e.tag = wSdt &&
    match e.findChild wSdtPr with
    | none => false
    | some pr => (pr.findChild w15RepItem).isSome

/-! ### Text elements: counting, collecting, clearing, setting -/

mutual
/-- Number of `w:t` nodes in the subtree (including `e` itself), in the order
`content.iter('w:t')` yields them. -/
def countT : Elem → Nat
  | .mk tg _ _ cs => (if tg = wT then 1 else 0) + countTL cs

def countTL : ElemList → Nat
  | .nil => 0
  | .cons e es => countT e + countTL es
end

/-- `if text_elements:` / the first-`w:t` existence check in
`_set_control_value_in_element`. -/
def hasT (e : Elem) : Bool := countT e ≠ 0

mutual
/-- The `.text` fields of all `w:t` nodes of the subtree in document order
(observer used to state what the clear-and-set update does). -/
def allTexts : Elem → List (Option String)
  | .mk tg _ x cs => (if tg = wT then [x] else []) ++ allTextsL cs

def allTextsL : ElemList → List (Option String)
  | .nil => []
  | .cons e es => allTexts e ++ allTextsL es
end

mutual
/-- Set `t.text = ""` on every `w:t` node of the subtree (lines 201-203). -/
def clearAllT : Elem → Elem
  | .mk tg a x cs => .mk tg a (if tg = wT then some "" else x) (clearAllTL cs)

def clearAllTL : ElemList → ElemList
  | .nil => .nil
  | .cons e es => .cons (clearAllT e) (clearAllTL es)
end

mutual
/-- Set the text of the first `w:t` node in document order to `v`
(`text_elements[0].text = ...` / the first-break loop in
`_set_control_value_in_element`); no-op when the subtree has no `w:t`. -/
def setFirstT (v : String) : Elem → Elem
  | .mk tg a x cs => if tg = wT then .mk tg a (some v) cs else .mk tg a x (setFirstTL v cs)

def setFirstTL (v : String) : ElemList → ElemList
  | .nil => .nil
  | .cons e es => if hasT e then .cons (setFirstT v e) es else .cons e (setFirstTL v es)
end

/-- Lines 201-207: clear every `w:t` then set the first one to `v`. -/
def clearSetF (v : String) (e : Elem) : Elem := setFirstT v (clearAllT e)

/-- The fresh `w:p`/`w:r`/`w:t` subtree created when an sdtContent holds no text
element (lines 211-214 and 486-489). -/
def prtElem (v : String) : Elem :=
  .mk wP [] none (.cons (.mk wR [] none (.cons (.mk wT [] (some v) .nil) .nil)) .nil)

/-- Append one child at the end of an element's child list (`ET.SubElement`). -/
def appendChild (e : Elem) (c : Elem) : Elem :=
  .mk e.tag e.attrs e.text (e.children.append (.cons c .nil))

/-! ### Mutation operations

The Python code mutates the parsed tree in place while iterating it.  Each
mutation touches only the subtree below one element, and the decision which
mutation to perform depends only on tag/attribute structure — structure no
earlier mutation of the same pass changes (earlier mutations either rewrite a
`w:t` text or append a fresh `w:p`/`w:r`/`w:t` at the end of a *different*
sdtContent's child list, so presence, order and paths of existing nodes are
stable).  The pass is therefore embedded in two phases: collect the list of
mutations (with the path of their target element) by one traversal of the
original tree, then apply them in order. -/

inductive Op : Type where
  /-- Main loop, lines 196-208: clear every `w:t` under the sdtContent at
  `path`, then set the first one to `v`. -/
  | clearSet (path : List Nat) (v : String) : Op
  /-- Lines 210-214 / 485-489: no `w:t` exists under the sdtContent at `path`;
  append a fresh paragraph/run/text holding `v`. -/
  | create (path : List Nat) (v : String) : Op
  /-- `_set_control_value_in_element`, lines 480-490 (text present): set the
  first `w:t` under the sdtContent at `path` to `v`. -/
  | setFirst (path : List Nat) (v : String) : Op
deriving DecidableEq

mutual
/-- Apply `f` to the element at `path` (child indices from the root). -/
def modifyAt (f : Elem → Elem) : List Nat → Elem → Elem
  | [], e => f e
  | i :: p, .mk tg a x cs => .mk tg a x (modifyAtL f p i cs)

def modifyAtL (f : Elem → Elem) (p : List Nat) : Nat → ElemList → ElemList
  | _, .nil => .nil
  | 0, .cons c cs => .cons (modifyAt f p c) cs
  | i + 1, .cons c cs => .cons c (modifyAtL f p i cs)
end

def applyOp (e : Elem) : Op → Elem
  | .clearSet p v => modifyAt (clearSetF v) p e
  | .create p v => modifyAt (fun c => appendChild c (prtElem v)) p e
  | .setFirst p v => modifyAt (setFirstT v) p e

def applyOps (ops : List Op) (e : Elem) : Elem := ops.foldl applyOp e

/-! ### `_set_control_value_in_element` (lines 458-494) -/

mutual
/-- Phase 1 of `_set_control_value_in_element`: walk the subtree in document
order (`element.iter('w:sdt')`); for every SDT whose resolved name equals
`control_name` (`if name != control_name: continue` — comparison against the
raw resolved name) and that has an sdtContent, emit a set-first-text op, or a
create op when the sdtContent subtree holds no `w:t`. -/
def setCtlOps (cname v : String) (p : List Nat) : Elem → List Op
  | .mk tg _ _ cs =>
      let here :=
        if tg = wSdt then
          match findChildL wSdtPr cs with
          | none => []
          | some pr =>
              if pyResolveName pr = some cname then
                match findChildIdxL wSdtContent 0 cs with
                | none => []
                | some (j, c) =>
                    if hasT c then [Op.setFirst (p ++ [j]) v] else [Op.create (p ++ [j]) v]
              else []
        else []
      here ++ setCtlOpsL cname v p 0 cs

def setCtlOpsL (cname v : String) (p : List Nat) (i : Nat) : ElemList → List Op
  | .nil => []
  | .cons c cs => setCtlOps cname v (p ++ [i]) c ++ setCtlOpsL cname v p (i + 1) cs
end

/-- `_set_control_value_in_element(element, control_name, value)`: set the text
of every content control named `control_name` within the subtree. -/
def set_control_value_in_element (cname v : String) (e : Elem) : Elem :=
  applyOps (setCtlOps cname v [] e) e

/-! ### Cost data (caller-supplied JSON record) -/

/-- One cost line item.  JSON `quantity` is an integer; `unitPrice` and `total`
are decimal numbers, modelled exactly as rationals. -/
structure Item where
  material : String
  quantity : ℤ
  unitPrice : ℚ
  total : ℚ
deriving DecidableEq

/-- The caller-supplied quotation record (the fields the verified routines
read; `data.get('oneTimeCosts', [])` collapses an absent list to `[]`). -/
structure QuotationData where
  companyName : String
  oneTimeCosts : List Item
  recurringCosts : List Item
deriving DecidableEq

/-- Two-digit zero padding for the cents part. -/
def pad2 (n : Nat) : String := if n < 10 then "0" ++ toString n else toString n

/-- Exact model of `f"{x:.2f}"`: round to cents and print with two decimals.
The cent count is `⌊100·q + 1/2⌋`, computed on the reduced fraction as
`(200·num + den).fdiv (2·den)` (integer floor division; `den > 0`).  Half-cents
round up here; every input in this development is an exact cent value, where
the two float-rounding conventions agree. -/
def fmt2 (q : ℚ) : String :=
  let c : ℤ := (200 * q.num + q.den).fdiv (2 * q.den)
  let sign := if c < 0 then "-" else ""
  sign ++ toString (c.natAbs / 100) ++ "." ++ pad2 (c.natAbs % 100)

/-- `f"€{x:.2f}"`. -/
def euroStr (q : ℚ) : String := "€" ++ fmt2 q

/-- The four `_set_control_value_in_element` calls of lines 432-439. -/
def patchContent (section_name : String) (item : Item) (content : Elem) : Elem :=
  let c1 := set_control_value_in_element "Module" item.material content
  let c2 := set_control_value_in_element "Aantal" (toString item.quantity) c1
  if section_name = "items1" then
    let c3 := set_control_value_in_element "éénmalige setupkost" (euroStr item.unitPrice) c2
    set_control_value_in_element "calctotaalsetup"
      (euroStr ((item.quantity : ℚ) * item.unitPrice)) c3
  else
    let c3 := set_control_value_in_element "Jaarlijks" (euroStr item.unitPrice) c2
    set_control_value_in_element "calctotaaljaarlijks"
      (euroStr ((item.quantity : ℚ) * item.unitPrice)) c3

/-- Replace the first `w:sdtContent` child of the clone by its patched form
(`clone.find('w:sdtContent')` is mutated in place in the Python code). -/
def patchCloneKids (section_name : String) (item : Item) : ElemList → ElemList
  | .nil => .nil
  | .cons c cs =>
      if c.tag = wSdtContent then .cons (patchContent section_name item c) cs
      else .cons c (patchCloneKids section_name item cs)

/-- Lines 417-441, body of the clone loop of `duplicate_repeating_section`:
deep-copy the template row and patch the named leaf controls inside its
sdtContent by string substitution.  The per-row total is
`float(quantity) * float(unitPrice)` — the item's own `total` field is not
consulted. -/
def patchClone (section_name : String) (tmpl : Elem) (item : Item) : Elem :=
  .mk tmpl.tag tmpl.attrs tmpl.text (patchCloneKids section_name item tmpl.children)

/-! ### `duplicate_repeating_section` (lines 347-456) -/

/-- An XML part as handed around as a string: either well formed (in which case
`ET.fromstring` yields the tree — serialisation and re-parsing are inverse on
well-formed parts) or malformed (in which case `ET.fromstring` raises
`ParseError`). -/
inductive XmlDoc : Type where
  | malformed (s : String) : XmlDoc
  | wellFormed (root : Elem) : XmlDoc
deriving DecidableEq

/-- Result of searching the tree for the first section SDT: not found, found
but a later locate step failed (function returns the original XML), or found
and rebuilt in place with a change count. -/
inductive SpliceRes (α : Type) : Type where
  | notFound : SpliceRes α
  | failed : SpliceRes α
  | replaced (a : α) (n : Nat) : SpliceRes α

def clonesList (section_name : String) (items : List Item) (tmpl : Elem) : ElemList :=
  match items with
  | [] => .nil
  | item :: rest => .cons (patchClone section_name tmpl item) (clonesList section_name rest tmpl)

/-- Lines 409-415 and 417-442: given the template row SDT (first
`w15:repeatingSectionItem` SDT in document order inside the section content),
build the clone list appended to its parent.  A clone whose template has no
sdtContent is skipped entirely (`continue` before `append`/count). -/
def clonesOf (section_name : String) (items : List Item) (tmpl : Elem) : ElemList × Nat :=
  match tmpl.findChild wSdtContent with
  | none => (.nil, 0)
  | some _ => (clonesList section_name items tmpl, items.length)

mutual
/-- Find the parent of the first `w15:repeatingSectionItem` SDT in document
order below the given child list; remove every repeating-item SDT child of
that parent (lines 409-415) and append one patched clone per data item
(lines 417-442).  `none` when no repeating item exists below. -/
def repSpliceL (section_name : String) (items : List Item) : ElemList → Option (ElemList × Nat)
  | .nil => none
  | .cons c cs =>
      if isRepItemSdt c then
        let (clones, n) := clonesOf section_name items c
        some ((cs.filter (fun x => !isRepItemSdt x)).append clones, n)
      else
        match repSpliceInside section_name items c with
        | some (c', n) => some (.cons c' cs, n)
        | none =>
            match repSpliceL section_name items cs with
            | some (cs', n) => some (.cons c cs', n)
            | none => none

def repSpliceInside (section_name : String) (items : List Item) : Elem → Option (Elem × Nat)
  | .mk tg a x cs =>
      match repSpliceL section_name items cs with
      | some (cs', n) => some (.mk tg a x cs', n)
      | none => none
end

/-- Replace the first `w:sdtContent` child (the one `find` located) by `c'`. -/
def replaceFirstContentL (c' : Elem) : ElemList → ElemList
  | .nil => .nil
  | .cons c cs => if c.tag = wSdtContent then .cons c' cs else .cons c (replaceFirstContentL c' cs)

/-- Lines 382-442 applied to the section container SDT: locate its sdtContent
(first `w:sdtContent` child), then splice the repeating rows below it.
`none` on any locate failure (the function then returns the original XML). -/
def transformSection (section_name : String) (items : List Item) (s : Elem) : Option (Elem × Nat) :=
  match s.findChild wSdtContent with
  | none => none
  | some c =>
      match repSpliceInside section_name items c with
      | none => none
      | some (c', n) =>
          some (.mk s.tag s.attrs s.text (replaceFirstContentL c' s.children), n)

mutual
/-- Lines 365-374: scan the whole tree in document order (`root.iter('w:sdt')`)
for the first SDT whose tag value equals the section name and transform it in
place. -/
def spliceSectionE (name : String) (f : Elem → Option (Elem × Nat)) (e : Elem) : SpliceRes Elem :=
  if isSectionSdt name e then
    match f e with
    | none => .failed
    | some (e', n) => .replaced e' n
  else
    match e with
    | .mk tg a x cs =>
        match spliceSectionL name f cs with
        | .notFound => .notFound
        | .failed => .failed
        | .replaced cs' n => .replaced (.mk tg a x cs') n

def spliceSectionL (name : String) (f : Elem → Option (Elem × Nat)) :
    ElemList → SpliceRes ElemList
  | .nil => .notFound
  | .cons c cs =>
      match spliceSectionE name f c with
      | .replaced c' n => .replaced (.cons c' cs) n
      | .failed => .failed
      | .notFound =>
          match spliceSectionL name f cs with
          | .replaced cs' n => .replaced (.cons c cs') n
          | .failed => .failed
          | .notFound => .notFound
end

/-- `duplicate_repeating_section(xml_content, section_name, items)`: on a parse
error or any locate failure the original XML is returned with zero changes;
otherwise the section is rebuilt and the change count equals the number of
appended clones. -/
def duplicate_repeating_section (doc : XmlDoc) (section_name : String) (items : List Item) :
    XmlDoc × Nat :=
  match doc with
  | .malformed s => (.malformed s, 0)
  | .wellFormed root =>
      match spliceSectionE section_name (transformSection section_name items) root with
      | .notFound => (.wellFormed root, 0)
      | .failed => (.wellFormed root, 0)
      | .replaced root' n => (.wellFormed root', n)

/-- `process_repeating_sections(xml_content, data)` (lines 314-345): section
`items1` is driven by `data['oneTimeCosts']`, section `items2` by
`data['recurringCosts']`; an absent or empty list skips its section. -/
def process_repeating_sections (doc : XmlDoc) (data : QuotationData) : XmlDoc × Nat :=
  let s1 :=
    if data.oneTimeCosts.isEmpty then (doc, 0)
    else duplicate_repeating_section doc "items1" data.oneTimeCosts
  let s2 :=
    if data.recurringCosts.isEmpty then (s1.1, 0)
    else duplicate_repeating_section s1.1 "items2" data.recurringCosts
  (s2.1, s1.2 + s2.2)

/-! ### `get_contextual_value` (lines 242-312) -/

/-- The six per-row table controls treated specially by the main loop
(lines 142-144). -/
def rowFields : List String :=
  ["Module", "Aantal", "éénmalige setupkost", "calctotaalsetup", "Jaarlijks", "calctotaaljaarlijks"]

/-- `get_contextual_value(control_name, instance_num, control_mappings, data)`:
instance-numbered values for the six row controls, the standard mapping for
every other known control, `None` otherwise. -/
def get_contextual_value (control_name : String) (instance_num : Nat)
    (control_mappings : List (String × String)) (data : QuotationData) : Option String :=
  if control_name = "Module" then
    some (if instance_num = 1 then
            match data.oneTimeCosts with
            | item :: _ => item.material
            | [] => ""
          else if instance_num = 2 then
            match data.recurringCosts with
            | item :: _ => item.material
            | [] => ""
          else "")
  else if control_name = "Aantal" then
    some (if instance_num = 1 then
            match data.oneTimeCosts with
            | item :: _ => toString item.quantity
            | [] => ""
          else if instance_num = 2 then
            match data.recurringCosts with
            | item :: _ => toString item.quantity
            | [] => ""
          else "")
  else if control_name = "éénmalige setupkost" then
    some (if instance_num = 1 then
            match data.oneTimeCosts with
            | item :: _ => euroStr item.unitPrice
            | [] => "€0.00"
          else "€0.00")
  else if control_name = "calctotaalsetup" then
    some (if instance_num = 1 then
            match data.oneTimeCosts with
            | item :: _ => euroStr ((item.quantity : ℚ) * item.unitPrice)
            | [] => "€0.00"
          else "€0.00")
  else if control_name = "Jaarlijks" then
    some (if instance_num = 2 then
            match data.recurringCosts with
            | item :: _ => euroStr item.unitPrice
            | [] => "€0.00"
          else "€0.00")
  else if control_name = "calctotaaljaarlijks" then
    some (if instance_num = 2 then
            match data.recurringCosts with
            | item :: _ => euroStr ((item.quantity : ℚ) * item.unitPrice)
            | [] => "€0.00"
          else "€0.00")
  else
    control_mappings.lookup control_name

/-! ### The main content-control loop (lines 132-233) -/

/-- Mutable state of the loop: the `control_instances` dictionary, the
`changes_made` counter and the mutations performed so far (in order). -/
structure PassState where
  instances : List (String × Nat)
  changes : Nat
  ops : List Op
deriving DecidableEq

/-- `control_instances[name] += 1` with the new instance number. -/
def bumpInstance (name : String) : List (String × Nat) → List (String × Nat) × Nat
  | [] => ([(name, 1)], 1)
  | (k, n) :: rest =>
      if k = name then ((k, n + 1) :: rest, n + 1)
      else
        let (rest', c) := bumpInstance name rest
        ((k, n) :: rest', c)

/-- Lines 158-216, the body of the loop for one SDT (at path `p`, with
`inside` the value of `is_inside_repeating_section(sdt)`): resolve the name,
skip row controls inside repeating sections, count the instance, fetch the
contextual value, and update the sdtContent when a value exists. -/
def handleSdt (m : List (String × String)) (data : QuotationData) (inside : Bool)
    (p : List Nat) (e : Elem) (s : PassState) : PassState :=
  match e.findChild wSdtPr with
  | none => s
  | some pr =>
      match effectiveName pr with
      | none => s
      | some nm =>
          if inside && rowFields.contains nm then s
          else
            let (insts, k) := bumpInstance nm s.instances
            match get_contextual_value nm k m data with
            | none => { s with instances := insts }
            | some v =>
                match findChildIdxL wSdtContent 0 e.children with
                | none => { s with instances := insts }
                | some (j, c) =>
                    { instances := insts
                      changes := s.changes + 1
                      ops := s.ops ++
                        [if hasT c then Op.clearSet (p ++ [j]) v else Op.create (p ++ [j]) v] }

mutual
/-- Phase 1 of the main loop: `root.iter('w:sdt')` in document order.
`inside` is whether some ancestor SDT (strictly above `e`) carries the
repeating-section-item mark; `is_inside_repeating_section` also inspects the
node itself. -/
def visitE (m : List (String × String)) (data : QuotationData) (inside : Bool)
    (p : List Nat) (e : Elem) (s : PassState) : PassState :=
  match e with
  | .mk tg _ _ cs =>
      let insideSelf := inside || isRepMarkedSdt e
      let s1 := if tg = wSdt then handleSdt m data insideSelf p e s else s
      visitL m data insideSelf p 0 cs s1

def visitL (m : List (String × String)) (data : QuotationData) (inside : Bool)
    (p : List Nat) (i : Nat) (l : ElemList) (s : PassState) : PassState :=
  match l with
  | .nil => s
  | .cons c cs => visitL m data inside p (i + 1) cs (visitE m data inside (p ++ [i]) c s)
end

/-- `process_content_controls_xml(xml_content, control_mappings, data)`
(lines 83-240): first the repeating sections, then the per-control pass; on a
parse error the (post-repeating-sections) XML is returned with a change count
of zero. -/
def process_content_controls_xml (doc : XmlDoc) (m : List (String × String))
    (data : QuotationData) : XmlDoc × Nat :=
  let (doc1, rc) := process_repeating_sections doc data
  match doc1 with
  | .malformed s => (.malformed s, 0)
  | .wellFormed root =>
      let st := visitE m data false [] root ⟨[], 0, []⟩
      (.wellFormed (applyOps st.ops root), rc + st.changes)

/-! ### `calculate_values` (lines 524-550) -/

/-- The aggregate values (the `current_date` entry is wall-clock dependent and
not part of any claim; it is omitted).  Every aggregate sums the items'
caller-supplied `total` fields. -/
structure Calculations where
  one_time_total : ℚ
  recurring_total : ℚ
  total_excl_vat : ℚ
  vat_amount : ℚ
  grand_total : ℚ
deriving DecidableEq

def calculate_values (data : QuotationData) : Calculations :=
  let one_time_total := (data.oneTimeCosts.map (fun i => i.total)).sum
  let recurring_total := (data.recurringCosts.map (fun i => i.total)).sum
  let total_excl_vat := one_time_total + recurring_total
  let vat_amount := total_excl_vat * (21 / 100)
  { one_time_total := one_time_total
    recurring_total := recurring_total
    total_excl_vat := total_excl_vat
    vat_amount := vat_amount
    grand_total := total_excl_vat + vat_amount }

/-! ### `process_word_template` (lines 25-81): the zip level

A `.docx` archive is a list of named entries.  Entry payloads are carried as
`XmlDoc`: an undecodable or unparseable payload is `malformed` (the
`decode`/parse failure paths both end with the original bytes being written
back, which is how the model treats a `malformed` payload with zero changes). -/

structure ZipEntry where
  name : String
  content : XmlDoc
deriving DecidableEq

/-- The seven parts that are examined for content controls (lines 50-51). -/
def targetParts : List String :=
  ["word/document.xml", "word/header1.xml", "word/header2.xml", "word/header3.xml",
   "word/footer1.xml", "word/footer2.xml", "word/footer3.xml"]

/-- Lines 46-70, one archive entry: target parts run through
`process_content_controls_xml` and are written back modified only when the
change count is positive; everything else (and every error path) writes the
original bytes. -/
def processEntry (m : List (String × String)) (data : QuotationData) (e : ZipEntry) : ZipEntry :=
  if e.name ∈ targetParts then
    let r := process_content_controls_xml e.content m data
    if 0 < r.2 then { e with content := r.1 } else e
  else e

def processZipEntries (m : List (String × String)) (data : QuotationData)
    (entries : List ZipEntry) : List ZipEntry :=
  entries.map (processEntry m data)

/-! ### The file system seen by `process_word_template`

Only the durable file system is modelled: the temporary directory of lines
37-39 is created fresh, holds a copy of the template, and is destroyed when
the `with` block exits, so its contents never persist and never alias a
caller-visible path. -/

/-- File system: finite map from paths to `.docx` archives. -/
def FileSys : Type := List (String × List ZipEntry)

def fsLookup (fs : FileSys) (p : String) : Option (List ZipEntry) :=
  match fs with
  | [] => none
  | (q, v) :: rest => if q = p then some v else fsLookup rest p

def fsWrite (fs : FileSys) (p : String) (v : List ZipEntry) : FileSys := (p, v) :: fs

/-- Modelled from the spec: `add_cost_summary_to_docx` rewrites the archive at
`docx_path` in place through the external `python-docx` library (not part of
this repository's sources), appending cost-specification tables to the
document body.  Only the rewrite location and its precondition matter for the
claims; the body edit itself is modelled as appending a summary subtree to the
`word/document.xml` part. -/
def append_cost_summary (entries : List ZipEntry) (data : QuotationData) : List ZipEntry :=
  entries.map (fun e =>
    if e.name = "word/document.xml" then
      { e with content :=
          match e.content with
          | .malformed s => .malformed s
          | .wellFormed root =>
              .wellFormed (appendChild root
                (.mk "costSummary" [("items",
                  toString (data.oneTimeCosts.length + data.recurringCosts.length))] none .nil)) }
    else e)

/-- `add_cost_summary_to_docx(docx_path, data)` (lines 688-771): opens the
archive at `docx_path`; when at least one cost list is non-empty it appends
the summary tables and saves back to the same path; otherwise (and on any
exception, e.g. a missing file) the file system is untouched. -/
def add_cost_summary_to_docx (fs : FileSys) (docx_path : String) (data : QuotationData) : FileSys :=
  match fsLookup fs docx_path with
  | none => fs
  | some entries =>
      if data.oneTimeCosts.isEmpty && data.recurringCosts.isEmpty then fs
      else fsWrite fs docx_path (append_cost_summary entries data)

/-- `process_word_template(template_path, data, output_path)` (lines 25-81):
read the template archive (via a copy in the temporary directory), write the
processed archive to `output_path`, then run the cost-summary step on
`output_path`.  A missing template (the `copy2` failure) is caught by the
outer handler and leaves the file system untouched, returning `False`. -/
def process_word_template (fs : FileSys) (template_path : String)
    (m : List (String × String)) (data : QuotationData) (output_path : String) :
    FileSys × Bool :=
  match fsLookup fs template_path with
  | none => (fs, false)
  | some entries =>
      let fs1 := fsWrite fs output_path (processZipEntries m data entries)
      (add_cost_summary_to_docx fs1 output_path data, true)

/-! ### `final_quotation_server.py`: the POST endpoint -/

/-- The I/O environment a request runs against: whether the template file
exists, the outcome of `processor.process_word_template` (`none` models an
exception escaping it), and the formatted `datetime.now()` timestamp. -/
structure ServerEnv where
  templateExists : Bool
  processorResult : Option Bool
  timestamp : String

/-- `companyName.replace(' ', '_').replace('/', '_')` (line 108); Python's
`str.replace` with single-character pattern and replacement is the
character map. -/
def sanitizeCompany (s : String) : String :=
  String.mk ((s.toList.map (fun c => if c = ' ' then '_' else c)).map
    (fun c => if c = '/' then '_' else c))

/-- Lines 108-110: `f"Offerte_{company_safe}_{timestamp}.docx"`. -/
def quotationFilename (company timestamp : String) : String :=
  "Offerte_" ++ sanitizeCompany company ++ "_" ++ timestamp ++ ".docx"

/-- Result dictionary of `create_quotation_document`. -/
inductive CreateResult : Type where
  | ok (filename : String) : CreateResult
  | err : CreateResult
deriving DecidableEq

/-- `create_quotation_document(data)` (lines 94-126): missing template,
processor failure, `ImportError` and any exception all yield
`{'success': False, ...}`; on success the generated filename is returned. -/
def create_quotation_document (env : ServerEnv) (data : QuotationData) : CreateResult :=
  if !env.templateExists then .err
  else
    match env.processorResult with
    | some true => .ok (quotationFilename data.companyName env.timestamp)
    | some false => .err
    | none => .err

/-- JSON body of the 200 response (lines 52-57). -/
structure SuccessBody where
  success : Bool
  message : String
  filename : String
  download_url : String
deriving DecidableEq

/-- An HTTP response: status code, plus the JSON body on the success path
(`send_error` responses carry no JSON body). -/
structure HttpResponse where
  status : Nat
  body : Option SuccessBody
deriving DecidableEq

/-- `do_POST` (lines 32-66).  `body` is the parsed JSON request body; `none`
models a body on which `json.loads` (or reading it) raises, which the
handler's `except` turns into a 500. -/
def do_POST (env : ServerEnv) (path : String) (body : Option QuotationData) : HttpResponse :=
  if path = "/generate-quotation" then
    match body with
    | none => ⟨500, none⟩
    | some data =>
        match create_quotation_document env data with
        | .ok filename =>
            ⟨200, some ⟨true, "Quotation generated successfully", filename,
              "/download/" ++ filename⟩⟩
        | .err => ⟨500, none⟩
  else ⟨404, none⟩

/-! ### Observers and side-condition predicates used by the statements -/

def Op.path : Op → List Nat
  | .clearSet p _ => p
  | .create p _ => p
  | .setFirst p _ => p

mutual
/-- No SDT tagged with section name `name` anywhere in the subtree
(including the root): such a tree is invisible to `duplicate_repeating_section`'s
section search. -/
def sectionFreeE (name : String) : Elem → Bool
  | .mk tg a x cs => !isSectionSdt name (.mk tg a x cs) && sectionFreeL name cs

def sectionFreeL (name : String) : ElemList → Bool
  | .nil => true
  | .cons c cs => sectionFreeE name c && sectionFreeL name cs
end

mutual
/-- No repeating-item SDT anywhere in the subtree (including the root). -/
def repFreeE : Elem → Bool
  | .mk tg a x cs => !isRepItemSdt (.mk tg a x cs) && repFreeL cs

def repFreeL : ElemList → Bool
  | .nil => true
  | .cons c cs => repFreeE c && repFreeL cs
end

mutual
/-- Text of the first `w:t` node in document order, if any. -/
def firstTText : Elem → Option String
  | .mk tg _ x cs => if tg = wT then x else firstTTextL cs

def firstTTextL : ElemList → Option String
  | .nil => none
  | .cons c cs =>
      match firstTText c with
      | some s => some s
      | none => firstTTextL cs
end

mutual
/-- First SDT in document order whose resolved control name is `cname`
(the criterion `_set_control_value_in_element` matches on). -/
def findNamedSdt (cname : String) : Elem → Option Elem
  | .mk tg a x cs =>
      if tg = wSdt then
        match findChildL wSdtPr cs with
        | some pr =>
            if pyResolveName pr = some cname then some (.mk tg a x cs)
            else findNamedSdtL cname cs
        | none => findNamedSdtL cname cs
      else findNamedSdtL cname cs

def findNamedSdtL (cname : String) : ElemList → Option Elem
  | .nil => none
  | .cons c cs =>
      match findNamedSdt cname c with
      | some e => some e
      | none => findNamedSdtL cname cs
end

/-- The displayed value of the control named `cname`: first text element under
the sdtContent of the first SDT resolving to that name. -/
def readControlValue (cname : String) (e : Elem) : Option String :=
  (findNamedSdt cname e).bind (fun sdt =>
    (sdt.findChild wSdtContent).bind firstTText)

/-! ### Concrete building blocks shared by the witnesses -/

/-- A `w:t` leaf holding the given text. -/
def tTextEl (s : String) : Elem := .mk wT [] (some s) .nil

/-- A leaf content control: `w:sdt` with a `w:tag`-named sdtPr and an
sdtContent holding one text run. -/
def leafControl (nm init : String) : Elem :=
  .mk wSdt [] none
    (.cons (.mk wSdtPr [] none (.cons (.mk wTagEl [(wVal, nm)] none .nil) .nil))
      (.cons (.mk wSdtContent [] none (.cons (tTextEl init) .nil)) .nil))

/-- A repeating-section template row holding the two one-time row controls. -/
def tmplRow : Elem :=
  .mk wSdt [] none
    (.cons (.mk wSdtPr [] none (.cons (.mk w15RepItem [] none .nil) .nil))
      (.cons (.mk wSdtContent [] none
        (.cons (leafControl "Module" "") (.cons (leafControl "calctotaalsetup" "") .nil))) .nil))

/-- The sdtPr of the `items1` section container. -/
def prItems1 : Elem :=
  .mk wSdtPr [] none (.cons (.mk wTagEl [(wVal, "items1")] none .nil) .nil)

/-- A section container SDT tagged `items1` holding `tmplRow`. -/
def sectionItems1 : Elem :=
  .mk wSdt [] none
    (.cons prItems1
      (.cons (.mk wSdtContent [] none (.cons tmplRow .nil)) .nil))

/-- Modelled from the claim sentence of C2 (not from the code): the name falls
back to the tag value only when no alias value is present at all. -/
def resolveNameClaim (pr : Elem) : Option String :=
  match aliasValOf pr with
  | some s => some s
  | none => tagValOf pr

/-! ### Concrete fixtures used by counterexamples and witnesses -/

/-- An sdtPr with an empty alias value and tag value `"x"`. -/
def prEmptyAlias : Elem :=
  .mk wSdtPr [] none
    (.cons (.mk wAlias [(wVal, "")] none .nil)
      (.cons (.mk wTagEl [(wVal, "x")] none .nil) .nil))

def itemA : Item := { material := "Setup", quantity := 1, unitPrice := 1000, total := 1000 }

def itemB : Item := { material := "Monthly service", quantity := 12, unitPrice := 100, total := 1200 }

/-- An item whose caller-supplied `total` (100) disagrees with
`quantity * unitPrice` (2 × 5 = 10). -/
def itemBad : Item := { material := "X", quantity := 2, unitPrice := 5, total := 100 }

def dataEmpty : QuotationData := { companyName := "c", oneTimeCosts := [], recurringCosts := [] }

def dataAB : QuotationData :=
  { companyName := "c", oneTimeCosts := [itemA], recurringCosts := [itemB] }

def dataBad : QuotationData :=
  { companyName := "c", oneTimeCosts := [itemBad], recurringCosts := [] }

/-- A document holding one ordinary named control. -/
def docClient : Elem :=
  .mk "w:document" [] none (.cons (leafControl "clientname" "old") .nil)

/-- A document holding the `items1` section. -/
def docItems1 : Elem :=
  .mk "w:document" [] none (.cons sectionItems1 .nil)

def mClient : List (String × String) := [("clientname", "ACME")]

def fsA : FileSys := [("template.docx", [⟨"word/document.xml", .wellFormed docClient⟩])]

def envOk : ServerEnv :=
  { templateExists := true, processorResult := some true, timestamp := "20250101_120000" }

/-- A company name with a space and a slash. -/
def dataABC : QuotationData :=
  { companyName := "A B/C", oneTimeCosts := [], recurringCosts := [] }

/-- The sdtPr of the `clientname` leaf control (as built by `leafControl`). -/
def prClientName : Elem :=
  .mk wSdtPr [] none (.cons (.mk wTagEl [(wVal, "clientname")] none .nil) .nil)

/-! ## Supporting lemmas -/

theorem fsLookup_write_ne (fs : FileSys) (q : String) (v : List ZipEntry) (p : String)
    (h : p ≠ q) : fsLookup (fsWrite fs q v) p = fsLookup fs p := by
  show (if q = p then some v else fsLookup fs p) = fsLookup fs p
  rw [if_neg (Ne.symm h)]

theorem add_cost_summary_frame (fs : FileSys) (path : String) (d : QuotationData)
    (p : String) (h : p ≠ path) :
    fsLookup (add_cost_summary_to_docx fs path d) p = fsLookup fs p := by
  unfold add_cost_summary_to_docx
  cases fsLookup fs path with
  | none => rfl
  | some entries =>
      by_cases hb : (d.oneTimeCosts.isEmpty && d.recurringCosts.isEmpty) = true
      · simp [hb]
      · simp only [Bool.not_eq_true] at hb
        simp [hb, fsLookup_write_ne fs path _ p h]

/-! ## C5 -/

/-- C5: the XML-processing routines never propagate an exception.  In the
embedding every routine is a total function, and on the parse-error input
(a malformed XML part) `process_content_controls_xml` and
`duplicate_repeating_section` both return the input part unchanged together
with a change count of zero. -/
theorem C5_parse_error_returns_input (s : String) (m : List (String × String))
    (data : QuotationData) (name : String) (items : List Item) :
    process_content_controls_xml (.malformed s) m data = (.malformed s, 0) ∧
      duplicate_repeating_section (.malformed s) name items = (.malformed s, 0) := by
  constructor
  · unfold process_content_controls_xml process_repeating_sections
      duplicate_repeating_section
    by_cases h1 : data.oneTimeCosts.isEmpty <;>
      by_cases h2 : data.recurringCosts.isEmpty <;> simp [h1, h2]
  · rfl

/-! ## C2 -/

/-- C2 counterexample: an sdtPr whose `w:alias` carries the (present but
empty) value `""` and whose `w:tag` carries `"x"`.  The code falls back to the
tag and resolves the control name to `"x"`, although an alias value is
present; under the claim's resolution rule the name would be the alias value
`""`. -/
theorem C2_counterexample :
    aliasValOf prEmptyAlias = some "" ∧ tagValOf prEmptyAlias = some "x" ∧
      effectiveName prEmptyAlias = some "x" ∧
      resolveNameClaim prEmptyAlias = some "" := by
  refine ⟨rfl, rfl, rfl, rfl⟩

/-- C2 (amended): the name is the `w:alias` value when that value is present
and non-empty; the code falls back to the `w:tag` value when the alias value
is absent *or empty*; and an SDT whose resolved value is absent or empty is
never treated as a named control. -/
theorem C2_alias_tag_resolution (pr : Elem) (a : String) :
    (aliasValOf pr = some a → a ≠ "" → effectiveName pr = some a) ∧
    (pyFalsy (aliasValOf pr) = true →
      effectiveName pr =
        match tagValOf pr with
        | none => none
        | some s => if s = "" then none else some s) ∧
    (pyFalsy (aliasValOf pr) = true → pyFalsy (tagValOf pr) = true →
      effectiveName pr = none) := by
  refine ⟨?_, ?_, ?_⟩
  · intro h1 h2
    simp [effectiveName, pyResolveName, h1, pyFalsy, h2]
  · intro hf
    unfold effectiveName pyResolveName
    rw [if_pos hf]
    cases ht : pr.findChild wTagEl with
    | none =>
        have htv : tagValOf pr = none := by simp [tagValOf, ht]
        rw [htv]
        cases ha : aliasValOf pr with
        | none => rfl
        | some s =>
            rw [ha] at hf
            simp only [pyFalsy, decide_eq_true_eq] at hf
            subst hf
            rfl
    | some t =>
        have htv : tagValOf pr = (t.attr wVal) := by simp [tagValOf, ht]
        rw [htv]
  · intro hf hft
    unfold effectiveName pyResolveName
    rw [if_pos hf]
    cases ht : pr.findChild wTagEl with
    | none =>
        cases ha : aliasValOf pr with
        | none => rfl
        | some s =>
            rw [ha] at hf
            simp only [pyFalsy, decide_eq_true_eq] at hf
            subst hf
            rfl
    | some t =>
        have htv : tagValOf pr = (t.attr wVal) := by simp [tagValOf, ht]
        rw [htv] at hft
        cases hv : t.attr wVal with
        | none => simp [hv]
        | some s =>
            rw [hv] at hft
            simp only [pyFalsy, decide_eq_true_eq] at hft
            simp [hv, hft]

/-- C2 witness: the amended resolution evaluated at a concrete sdtPr with a
non-empty alias. -/
theorem C2_alias_tag_resolution_witness :
    effectiveName (.mk wSdtPr [] none
      (.cons (.mk wAlias [(wVal, "klant")] none .nil) .nil)) = some "klant" :=
  (C2_alias_tag_resolution
      (.mk wSdtPr [] none (.cons (.mk wAlias [(wVal, "klant")] none .nil) .nil))
      "klant").1 rfl (by decide)

/-! ## C6 -/

/-- C6: a POST to `/generate-quotation` whose body is processed successfully
receives 200 with `success = true`, the filename
`Offerte_<companyName with spaces and slashes replaced by underscores>_<timestamp>.docx`
and a download URL `/download/<filename>`; a POST whose document creation
fails or raises receives 500; a POST to any other path receives 404. -/
theorem C6_do_POST_behaviour (env : ServerEnv) (path : String)
    (body : Option QuotationData) (d : QuotationData) :
    (env.templateExists = true → env.processorResult = some true →
      do_POST env "/generate-quotation" (some d) =
        ⟨200, some ⟨true, "Quotation generated successfully",
          "Offerte_" ++ sanitizeCompany d.companyName ++ "_" ++ env.timestamp ++ ".docx",
          "/download/" ++
            ("Offerte_" ++ sanitizeCompany d.companyName ++ "_" ++ env.timestamp ++ ".docx")⟩⟩) ∧
    (create_quotation_document env d = .err →
      do_POST env "/generate-quotation" (some d) = ⟨500, none⟩) ∧
    (do_POST env "/generate-quotation" none = ⟨500, none⟩) ∧
    (path ≠ "/generate-quotation" → do_POST env path body = ⟨404, none⟩) := by
  refine ⟨?_, ?_, ?_, ?_⟩
  · intro h1 h2
    simp [do_POST, create_quotation_document, h1, h2, quotationFilename]
  · intro h
    simp [do_POST, h]
  · simp [do_POST]
  · intro h
    simp [do_POST, h]

/-- C6 witness: concrete request against an environment where processing
succeeds, plus the 404 path. -/
theorem C6_do_POST_behaviour_witness :
    do_POST envOk "/generate-quotation" (some dataABC) =
      ⟨200, some ⟨true, "Quotation generated successfully",
        "Offerte_A_B_C_20250101_120000.docx",
        "/download/Offerte_A_B_C_20250101_120000.docx"⟩⟩ ∧
    do_POST envOk "/other" none = ⟨404, none⟩ := by
  constructor
  · have h := (C6_do_POST_behaviour envOk "/other" none dataABC).1 rfl rfl
    rw [h]
    rfl
  · exact (C6_do_POST_behaviour envOk "/other" none dataEmpty).2.2.2 (by decide)

/-! ## C7 -/

/-- C7: `process_word_template` never modifies any file other than the one at
`output_path`: in particular the template file (a distinct path) is untouched,
all intermediate processing happening on the temporary-directory copy that is
discarded, and only the output archive (also rewritten in place by the
cost-summary step) persists. -/
theorem C7_process_word_template_frame (fs : FileSys) (template_path : String)
    (m : List (String × String)) (data : QuotationData) (output_path p : String)
    (h : p ≠ output_path) :
    fsLookup (process_word_template fs template_path m data output_path).1 p =
      fsLookup fs p := by
  unfold process_word_template
  cases hl : fsLookup fs template_path with
  | none => rfl
  | some entries =>
      simp only []
      rw [add_cost_summary_frame _ _ _ _ h, fsLookup_write_ne _ _ _ _ h]

/-- C7 witness: the template file's contents are unchanged by a concrete run
writing to a distinct output path. -/
theorem C7_process_word_template_frame_witness :
    fsLookup (process_word_template fsA "template.docx" mClient dataEmpty "out.docx").1
        "template.docx" = fsLookup fsA "template.docx" :=
  C7_process_word_template_frame fsA "template.docx" mClient dataEmpty "out.docx"
    "template.docx" (by decide)

/-! ## C10 -/

/-- C10: an archive entry that is not one of the seven target parts is copied
byte-for-byte; a target part is also written back unchanged whenever
processing it yields zero changes (which covers the decode/parse failure
paths, whose model is a malformed payload processed with zero changes).
The whole-archive pass is the entrywise map of this per-entry step. -/
theorem C10_entry_preservation (m : List (String × String)) (data : QuotationData)
    (e : ZipEntry) (entries : List ZipEntry) :
    (e.name ∉ targetParts → processEntry m data e = e) ∧
    ((process_content_controls_xml e.content m data).2 = 0 → processEntry m data e = e) ∧
    processZipEntries m data entries = entries.map (processEntry m data) := by
  refine ⟨?_, ?_, rfl⟩
  · intro h
    simp [processEntry, h]
  · intro h
    unfold processEntry
    by_cases hm : e.name ∈ targetParts
    · simp [hm, h]
    · simp [hm]

/-- C10 witness: a non-target entry and a target entry with a malformed
payload (zero changes) both survive unchanged. -/
theorem C10_entry_preservation_witness :
    processEntry mClient dataEmpty ⟨"word/styles.xml", .malformed "<junk"⟩ =
        ⟨"word/styles.xml", .malformed "<junk"⟩ ∧
    processEntry mClient dataEmpty ⟨"word/document.xml", .malformed "<junk"⟩ =
        ⟨"word/document.xml", .malformed "<junk"⟩ := by
  constructor
  · exact (C10_entry_preservation mClient dataEmpty
      ⟨"word/styles.xml", .malformed "<junk"⟩ []).1 (by decide)
  · exact (C10_entry_preservation mClient dataEmpty
      ⟨"word/document.xml", .malformed "<junk"⟩ []).2.1 (by decide)

/-! ## Step equations for the mutually recursive functions
(each holds by `rfl`; stated once so later proofs can rewrite with them) -/

theorem spliceSectionE_eq (name : String) (f : Elem → Option (Elem × Nat))
    (tg : String) (a : List (String × String)) (x : Option String) (cs : ElemList) :
    spliceSectionE name f (.mk tg a x cs) =
      if isSectionSdt name (.mk tg a x cs) then
        match f (.mk tg a x cs) with
        | none => .failed
        | some (e', n) => .replaced e' n
      else
        match spliceSectionL name f cs with
        | .notFound => .notFound
        | .failed => .failed
        | .replaced cs' n => .replaced (.mk tg a x cs') n := rfl

theorem spliceSectionL_cons (name : String) (f : Elem → Option (Elem × Nat))
    (c : Elem) (cs : ElemList) :
    spliceSectionL name f (.cons c cs) =
      match spliceSectionE name f c with
      | .replaced c' n => .replaced (.cons c' cs) n
      | .failed => .failed
      | .notFound =>
          match spliceSectionL name f cs with
          | .replaced cs' n => .replaced (.cons c cs') n
          | .failed => .failed
          | .notFound => .notFound := rfl

theorem repSpliceL_cons (sn : String) (items : List Item) (c : Elem) (cs : ElemList) :
    repSpliceL sn items (.cons c cs) =
      if isRepItemSdt c then
        some (((cs.filter (fun x => !isRepItemSdt x)).append (clonesOf sn items c).1),
          (clonesOf sn items c).2)
      else
        match repSpliceInside sn items c with
        | some (c', n) => some (.cons c' cs, n)
        | none =>
            match repSpliceL sn items cs with
            | some (cs', n) => some (.cons c cs', n)
            | none => none := by
  rw [repSpliceL]

theorem repSpliceInside_eq (sn : String) (items : List Item)
    (tg : String) (a : List (String × String)) (x : Option String) (cs : ElemList) :
    repSpliceInside sn items (.mk tg a x cs) =
      match repSpliceL sn items cs with
      | some (cs', n) => some (.mk tg a x cs', n)
      | none => none := rfl

/-! ## Section-search and repeating-item lemmas (for C1 and C4) -/

mutual
theorem sectionFreeE_splice (name : String) (f : Elem → Option (Elem × Nat)) :
    (e : Elem) → sectionFreeE name e = true → spliceSectionE name f e = .notFound
  | .mk tg a x cs, h => by
      have hh := h
      unfold sectionFreeE at hh
      rw [Bool.and_eq_true, Bool.not_eq_true'] at hh
      rw [spliceSectionE_eq, hh.1]
      simp only [Bool.false_eq_true, if_false]
      rw [sectionFreeL_splice name f cs hh.2]

theorem sectionFreeL_splice (name : String) (f : Elem → Option (Elem × Nat)) :
    (l : ElemList) → sectionFreeL name l = true → spliceSectionL name f l = .notFound
  | .nil, _ => rfl
  | .cons c cs, h => by
      have hh := h
      unfold sectionFreeL at hh
      rw [Bool.and_eq_true] at hh
      rw [spliceSectionL_cons, sectionFreeE_splice name f c hh.1,
        sectionFreeL_splice name f cs hh.2]
end

mutual
theorem repFreeE_inside (sn : String) (items : List Item) :
    (e : Elem) → repFreeE e = true → repSpliceInside sn items e = none
  | .mk tg a x cs, h => by
      have hh := h
      unfold repFreeE at hh
      rw [Bool.and_eq_true] at hh
      rw [repSpliceInside_eq, repFreeL_splice sn items cs hh.2]

theorem repFreeL_splice (sn : String) (items : List Item) :
    (l : ElemList) → repFreeL l = true → repSpliceL sn items l = none
  | .nil, _ => rfl
  | .cons c cs, h => by
      have hh := h
      unfold repFreeL at hh
      rw [Bool.and_eq_true] at hh
      have hc : isRepItemSdt c = false := by
        have hcc := hh.1
        unfold repFreeE at hcc
        cases c with
        | mk tg a x cs' =>
            rw [Bool.and_eq_true, Bool.not_eq_true'] at hcc
            exact hcc.1
      rw [repSpliceL_cons, hc]
      simp only [Bool.false_eq_true, if_false]
      rw [repFreeE_inside sn items c hh.1, repFreeL_splice sn items cs hh.2]
end

theorem dup_sectionFree (root : Elem) (name : String) (items : List Item)
    (h : sectionFreeE name root = true) :
    duplicate_repeating_section (.wellFormed root) name items = (.wellFormed root, 0) := by
  show (match spliceSectionE name (transformSection name items) root with
        | .notFound => (XmlDoc.wellFormed root, 0)
        | .failed => (XmlDoc.wellFormed root, 0)
        | .replaced root' n => (XmlDoc.wellFormed root', n)) = (XmlDoc.wellFormed root, 0)
  rw [sectionFreeE_splice name _ root h]

/-! ## C4 -/

/-- C4: repeating-section handling is bounded to exactly two fixed sections:
`items1` is driven by `data['oneTimeCosts']` and `items2` by
`data['recurringCosts']`; an absent or empty list leaves the XML unchanged and
contributes zero changes, and a document containing no `items1`/`items2`
section container is never modified (no other section name is processed). -/
theorem C4_two_fixed_sections (doc : XmlDoc) (data : QuotationData) (root : Elem) :
    (data.oneTimeCosts = [] → data.recurringCosts = [] →
      process_repeating_sections doc data = (doc, 0)) ∧
    (data.oneTimeCosts = [] → data.recurringCosts ≠ [] →
      process_repeating_sections doc data =
        duplicate_repeating_section doc "items2" data.recurringCosts) ∧
    (data.oneTimeCosts ≠ [] → data.recurringCosts = [] →
      process_repeating_sections doc data =
        duplicate_repeating_section doc "items1" data.oneTimeCosts) ∧
    (data.oneTimeCosts ≠ [] → data.recurringCosts ≠ [] →
      process_repeating_sections doc data =
        ((duplicate_repeating_section
            (duplicate_repeating_section doc "items1" data.oneTimeCosts).1 "items2"
            data.recurringCosts).1,
          (duplicate_repeating_section doc "items1" data.oneTimeCosts).2 +
            (duplicate_repeating_section
              (duplicate_repeating_section doc "items1" data.oneTimeCosts).1 "items2"
              data.recurringCosts).2)) ∧
    (sectionFreeE "items1" root = true → sectionFreeE "items2" root = true →
      process_repeating_sections (.wellFormed root) data = (.wellFormed root, 0)) := by
  refine ⟨?_, ?_, ?_, ?_, ?_⟩
  · intro h1 h2
    simp [process_repeating_sections, h1, h2]
  · intro h1 h2
    simp [process_repeating_sections, h1, h2]
  · intro h1 h2
    simp [process_repeating_sections, h1, h2]
  · intro h1 h2
    simp [process_repeating_sections, h1, h2]
  · intro h1 h2
    unfold process_repeating_sections
    by_cases e1 : data.oneTimeCosts.isEmpty <;> by_cases e2 : data.recurringCosts.isEmpty <;>
      simp [e1, e2, dup_sectionFree root "items1" data.oneTimeCosts h1,
        dup_sectionFree root "items2" data.recurringCosts h2]

/-- C4 witness: with both cost lists empty the XML passes through unchanged,
and a document without `items1`/`items2` sections is never modified. -/
theorem C4_two_fixed_sections_witness :
    process_repeating_sections (.wellFormed docClient) dataEmpty =
        (.wellFormed docClient, 0) ∧
    process_repeating_sections (.wellFormed docClient) dataAB =
        (.wellFormed docClient, 0) := by
  constructor
  · exact (C4_two_fixed_sections (.wellFormed docClient) dataEmpty docClient).1 rfl rfl
  · exact (C4_two_fixed_sections (.wellFormed docClient) dataAB docClient).2.2.2.2
      (by decide) (by decide)

/-! ## Structure preservation through `_set_control_value_in_element` -/

mutual
theorem setCtlOps_path (cname v : String) :
    (p : List Nat) → (e : Elem) → ∀ op ∈ setCtlOps cname v p e,
      ∃ q, op.path = p ++ q ∧ q ≠ []
  | p, .mk tg a x cs, op, hop => by
      unfold setCtlOps at hop
      rw [List.mem_append] at hop
      rcases hop with h | h
      · split at h
        · split at h
          · exact absurd h (List.not_mem_nil op)
          · split at h
            · split at h
              · exact absurd h (List.not_mem_nil op)
              · split at h <;>
                  · rw [List.mem_singleton] at h
                    subst h
                    exact ⟨_, rfl, by simp⟩
            · exact absurd h (List.not_mem_nil op)
        · exact absurd h (List.not_mem_nil op)
      · exact setCtlOpsL_path cname v p 0 cs op h

theorem setCtlOpsL_path (cname v : String) :
    (p : List Nat) → (i : Nat) → (l : ElemList) → ∀ op ∈ setCtlOpsL cname v p i l,
      ∃ q, op.path = p ++ q ∧ q ≠ []
  | p, i, .nil, op, hop => absurd hop (List.not_mem_nil op)
  | p, i, .cons c cs, op, hop => by
      unfold setCtlOpsL at hop
      rw [List.mem_append] at hop
      rcases hop with h | h
      · obtain ⟨q, hq, _⟩ := setCtlOps_path cname v (p ++ [i]) c op h
        exact ⟨i :: q, by simpa using hq, by simp⟩
      · exact setCtlOpsL_path cname v p (i + 1) cs op h
end

theorem applyOp_tag (e : Elem) (op : Op) (h : op.path ≠ []) :
    (applyOp e op).tag = e.tag := by
  cases op with
  | clearSet p v =>
      cases p with
      | nil => exact absurd rfl h
      | cons i rest => cases e; rfl
  | create p v =>
      cases p with
      | nil => exact absurd rfl h
      | cons i rest => cases e; rfl
  | setFirst p v =>
      cases p with
      | nil => exact absurd rfl h
      | cons i rest => cases e; rfl

theorem applyOps_tag (ops : List Op) (e : Elem) (h : ∀ op ∈ ops, op.path ≠ []) :
    (applyOps ops e).tag = e.tag := by
  induction ops generalizing e with
  | nil => rfl
  | cons op ops ih =>
      show (applyOps ops (applyOp e op)).tag = e.tag
      rw [ih (applyOp e op) (fun o ho => h o (List.mem_cons_of_mem _ ho)),
        applyOp_tag e op (h op (List.mem_cons_self op ops))]

theorem scv_tag (n v : String) (e : Elem) :
    (set_control_value_in_element n v e).tag = e.tag := by
  apply applyOps_tag
  intro op hop
  obtain ⟨q, hq, hne⟩ := setCtlOps_path n v [] e op hop
  rw [hq]
  simpa using hne

theorem patchContent_tag (sn : String) (it : Item) (c : Elem) :
    (patchContent sn it c).tag = c.tag := by
  unfold patchContent
  by_cases h : sn = "items1" <;> simp [h, scv_tag]

theorem findPr_patchCloneKids (sn : String) (it : Item) :
    (cs : ElemList) → findChildL wSdtPr (patchCloneKids sn it cs) = findChildL wSdtPr cs
  | .nil => rfl
  | .cons c cs => by
      unfold patchCloneKids
      by_cases h : c.tag = wSdtContent
      · rw [if_pos h]
        show (if (patchContent sn it c).tag = wSdtPr then some (patchContent sn it c)
              else findChildL wSdtPr cs) = _
        rw [patchContent_tag, h]
        have hne : ¬ (wSdtContent = wSdtPr) := by decide
        rw [if_neg hne]
        show _ = (if c.tag = wSdtPr then some c else findChildL wSdtPr cs)
        rw [h, if_neg hne]
      · rw [if_neg h]
        show (if c.tag = wSdtPr then some c else findChildL wSdtPr (patchCloneKids sn it cs)) = _
        by_cases h2 : c.tag = wSdtPr
        · rw [if_pos h2]
          show _ = (if c.tag = wSdtPr then some c else findChildL wSdtPr cs)
          rw [if_pos h2]
        · rw [if_neg h2, findPr_patchCloneKids sn it cs]
          show _ = (if c.tag = wSdtPr then some c else findChildL wSdtPr cs)
          rw [if_neg h2]

theorem isRep_patchClone (sn : String) (tmpl : Elem) (it : Item) :
    isRepItemSdt (patchClone sn tmpl it) = isRepItemSdt tmpl := by
  cases tmpl with
  | mk tg a x cs =>
      show isRepItemSdt (.mk tg a x (patchCloneKids sn it cs)) = _
      unfold isRepItemSdt Elem.findChild
      simp only [Elem.tag, Elem.children]
      rw [findPr_patchCloneKids]

/-! ## Counting repeating rows -/

theorem countP_append (p : Elem → Bool) :
    (a b : ElemList) → (a.append b).countP p = a.countP p + b.countP p
  | .nil, b => by
      show b.countP p = 0 + b.countP p
      omega
  | .cons c a, b => by
      show (if p c then 1 else 0) + (a.append b).countP p =
        ((if p c then 1 else 0) + a.countP p) + b.countP p
      rw [countP_append p a b]
      omega

theorem countP_filter_not (p : Elem → Bool) :
    (l : ElemList) → (l.filter (fun x => !p x)).countP p = 0
  | .nil => rfl
  | .cons c l => by
      unfold ElemList.filter
      cases h : p c with
      | true => simp [h, countP_filter_not p l]
      | false => simp [h, ElemList.countP, countP_filter_not p l]

theorem repFreeE_not (e : Elem) (h : repFreeE e = true) : isRepItemSdt e = false := by
  cases e with
  | mk tg a x cs =>
      unfold repFreeE at h
      rw [Bool.and_eq_true, Bool.not_eq_true'] at h
      exact h.1

theorem repFree_countP :
    (l : ElemList) → repFreeL l = true → l.countP isRepItemSdt = 0
  | .nil, _ => rfl
  | .cons c l, h => by
      unfold repFreeL at h
      rw [Bool.and_eq_true] at h
      unfold ElemList.countP
      rw [repFreeE_not c h.1, repFree_countP l h.2]
      simp

theorem clonesList_countP (sn : String) (tmpl : Elem) (h : isRepItemSdt tmpl = true) :
    (items : List Item) →
      (clonesList sn items tmpl).countP isRepItemSdt = items.length
  | [] => rfl
  | item :: rest => by
      show (ElemList.cons (patchClone sn tmpl item) (clonesList sn rest tmpl)).countP
          isRepItemSdt = rest.length + 1
      unfold ElemList.countP
      rw [isRep_patchClone, h, clonesList_countP sn tmpl h rest]
      simp only [if_true]
      omega

/-! ## Skipping marker-free prefixes -/

theorem repSkipL (sn : String) (items : List Item) :
    (a : ElemList) → repFreeL a = true → (l : ElemList) →
      repSpliceL sn items (a.append l) =
        match repSpliceL sn items l with
        | some (l', n) => some (a.append l', n)
        | none => none
  | .nil, _, l => by
      show repSpliceL sn items l = _
      cases h : repSpliceL sn items l with
      | none => rfl
      | some r => cases r; rfl
  | .cons c a, h, l => by
      unfold repFreeL at h
      rw [Bool.and_eq_true] at h
      show repSpliceL sn items (.cons c (a.append l)) = _
      rw [repSpliceL_cons, repFreeE_not c h.1]
      simp only [Bool.false_eq_true, if_false]
      rw [repFreeE_inside sn items c h.1, repSkipL sn items a h.2 l]
      cases hl : repSpliceL sn items l with
      | none => rfl
      | some r => cases r; rfl

theorem sectionSkipL (name : String) (f : Elem → Option (Elem × Nat)) :
    (a : ElemList) → sectionFreeL name a = true → (l : ElemList) →
      spliceSectionL name f (a.append l) =
        match spliceSectionL name f l with
        | .notFound => .notFound
        | .failed => .failed
        | .replaced l' n => .replaced (a.append l') n
  | .nil, _, l => by
      show spliceSectionL name f l = _
      cases h : spliceSectionL name f l <;> rfl
  | .cons c a, h, l => by
      unfold sectionFreeL at h
      rw [Bool.and_eq_true] at h
      show spliceSectionL name f (.cons c (a.append l)) = _
      rw [spliceSectionL_cons, sectionFreeE_splice name f c h.1,
        sectionSkipL name f a h.2 l]
      cases hl : spliceSectionL name f l <;> rfl

theorem dup_replaced (name : String) (items : List Item) (root root' : Elem) (n : Nat)
    (h : spliceSectionE name (transformSection name items) root = .replaced root' n) :
    duplicate_repeating_section (.wellFormed root) name items = (.wellFormed root', n) := by
  show (match spliceSectionE name (transformSection name items) root with
        | .notFound => (XmlDoc.wellFormed root, 0)
        | .failed => (XmlDoc.wellFormed root, 0)
        | .replaced r k => (XmlDoc.wellFormed r, k)) = (XmlDoc.wellFormed root', n)
  rw [h]

/-! ## C1 -/

/-- C1: for a (non-empty) list of cost items, `duplicate_repeating_section`
locates the section container SDT whose tag value equals the section name
(here: inside a document whose other top-level content contains no SDT tagged
with that name), takes the first nested `w15:repeatingSectionItem` SDT as the
template row, removes every repeating-item SDT sibling under the template
row's parent, appends one patched deep copy of the template per input item,
and returns a change count equal to the number of items; the parent then
holds exactly one repeating row per data item. -/
theorem C1_duplicate_repeating_section (name : String) (items : List Item)
    (tgD : String) (aD : List (String × String)) (xD : Option String)
    (pre post : ElemList) (sA : List (String × String)) (sT : Option String)
    (prS : Elem) (cA : List (String × String)) (cT : Option String)
    (a b : ElemList) (tmpl : Elem)
    (hD : tgD ≠ wSdt)
    (hpre : sectionFreeL name pre = true)
    (hsec : isSectionSdt name
      (.mk wSdt sA sT (.cons prS (.cons (.mk wSdtContent cA cT
        (a.append (.cons tmpl b))) .nil))) = true)
    (hprS : prS.tag = wSdtPr)
    (ha : repFreeL a = true)
    (htm : isRepItemSdt tmpl = true)
    (htc : (tmpl.findChild wSdtContent).isSome = true)
    (_hitems : items ≠ []) :
    duplicate_repeating_section
        (.wellFormed (.mk tgD aD xD (pre.append (.cons
          (.mk wSdt sA sT (.cons prS (.cons (.mk wSdtContent cA cT
            (a.append (.cons tmpl b))) .nil))) post))))
        name items =
      (.wellFormed (.mk tgD aD xD (pre.append (.cons
          (.mk wSdt sA sT (.cons prS (.cons (.mk wSdtContent cA cT
            (a.append ((b.filter (fun x => !isRepItemSdt x)).append
              (clonesList name items tmpl)))) .nil))) post))),
        items.length) ∧
    (a.append ((b.filter (fun x => !isRepItemSdt x)).append
        (clonesList name items tmpl))).countP isRepItemSdt = items.length := by
  obtain ⟨tc, htc'⟩ := Option.isSome_iff_exists.mp htc
  have e1 : clonesOf name items tmpl = (clonesList name items tmpl, items.length) := by
    unfold clonesOf
    rw [htc']
  have e2 : repSpliceL name items (.cons tmpl b) =
      some ((b.filter (fun x => !isRepItemSdt x)).append (clonesList name items tmpl),
        items.length) := by
    rw [repSpliceL_cons, htm, e1]
    simp
  have e3 : repSpliceL name items (a.append (.cons tmpl b)) =
      some (a.append ((b.filter (fun x => !isRepItemSdt x)).append
        (clonesList name items tmpl)), items.length) := by
    rw [repSkipL name items a ha, e2]
  have e4 : repSpliceInside name items
      (.mk wSdtContent cA cT (a.append (.cons tmpl b))) =
      some (.mk wSdtContent cA cT
        (a.append ((b.filter (fun x => !isRepItemSdt x)).append
          (clonesList name items tmpl))), items.length) := by
    rw [repSpliceInside_eq, e3]
  have hne1 : ¬ (wSdtPr = wSdtContent) := by decide
  have e5 : transformSection name items
      (.mk wSdt sA sT (.cons prS (.cons (.mk wSdtContent cA cT
        (a.append (.cons tmpl b))) .nil))) =
      some (.mk wSdt sA sT (.cons prS (.cons (.mk wSdtContent cA cT
        (a.append ((b.filter (fun x => !isRepItemSdt x)).append
          (clonesList name items tmpl)))) .nil)), items.length) := by
    unfold transformSection
    have hfc : findChildL wSdtContent (.cons prS (.cons (.mk wSdtContent cA cT
        (a.append (.cons tmpl b))) .nil)) =
        some (.mk wSdtContent cA cT (a.append (.cons tmpl b))) := by
      show (if prS.tag = wSdtContent then some prS else _) = _
      rw [hprS, if_neg hne1]
      show (if wSdtContent = wSdtContent then _ else _) = _
      rw [if_pos rfl]
    show (match findChildL wSdtContent (ElemList.cons prS (ElemList.cons
        (Elem.mk wSdtContent cA cT (a.append (ElemList.cons tmpl b))) ElemList.nil)) with
      | none => (none : Option (Elem × Nat))
      | some c =>
          match repSpliceInside name items c with
          | none => none
          | some (c', n) =>
              some (Elem.mk wSdt sA sT (replaceFirstContentL c'
                (ElemList.cons prS (ElemList.cons (Elem.mk wSdtContent cA cT
                  (a.append (ElemList.cons tmpl b))) ElemList.nil))), n)) = _
    rw [hfc]
    simp only [e4]
    have hrep : replaceFirstContentL
        (.mk wSdtContent cA cT (a.append ((b.filter (fun x => !isRepItemSdt x)).append
          (clonesList name items tmpl))))
        (.cons prS (.cons (.mk wSdtContent cA cT (a.append (.cons tmpl b))) .nil)) =
        .cons prS (.cons (.mk wSdtContent cA cT
          (a.append ((b.filter (fun x => !isRepItemSdt x)).append
            (clonesList name items tmpl)))) .nil) := by
      show (if prS.tag = wSdtContent then _ else ElemList.cons prS (replaceFirstContentL _
        (.cons (.mk wSdtContent cA cT (a.append (.cons tmpl b))) .nil))) = _
      rw [hprS, if_neg hne1]
      show ElemList.cons prS (if wSdtContent = wSdtContent then _ else _) = _
      rw [if_pos rfl]
    rw [hrep]
  have e6 : spliceSectionE name (transformSection name items)
      (.mk wSdt sA sT (.cons prS (.cons (.mk wSdtContent cA cT
        (a.append (.cons tmpl b))) .nil))) =
      .replaced (.mk wSdt sA sT (.cons prS (.cons (.mk wSdtContent cA cT
        (a.append ((b.filter (fun x => !isRepItemSdt x)).append
          (clonesList name items tmpl)))) .nil))) items.length := by
    rw [spliceSectionE_eq, hsec]
    simp only [if_true, e5]
  have e7 : spliceSectionL name (transformSection name items)
      (.cons (.mk wSdt sA sT (.cons prS (.cons (.mk wSdtContent cA cT
        (a.append (.cons tmpl b))) .nil))) post) =
      .replaced (.cons (.mk wSdt sA sT (.cons prS (.cons (.mk wSdtContent cA cT
        (a.append ((b.filter (fun x => !isRepItemSdt x)).append
          (clonesList name items tmpl)))) .nil))) post) items.length := by
    rw [spliceSectionL_cons, e6]
  have e8 : spliceSectionL name (transformSection name items)
      (pre.append (.cons (.mk wSdt sA sT (.cons prS (.cons (.mk wSdtContent cA cT
        (a.append (.cons tmpl b))) .nil))) post)) =
      .replaced (pre.append (.cons (.mk wSdt sA sT (.cons prS (.cons
        (.mk wSdtContent cA cT (a.append ((b.filter (fun x => !isRepItemSdt x)).append
          (clonesList name items tmpl)))) .nil))) post)) items.length := by
    rw [sectionSkipL name (transformSection name items) pre hpre, e7]
  have hroot : isSectionSdt name (.mk tgD aD xD (pre.append (.cons
      (.mk wSdt sA sT (.cons prS (.cons (.mk wSdtContent cA cT
        (a.append (.cons tmpl b))) .nil))) post))) = false := by
    unfold isSectionSdt
    simp [Elem.tag, hD]
  constructor
  · apply dup_replaced
    rw [spliceSectionE_eq, hroot]
    simp only [Bool.false_eq_true, if_false]
    rw [e8]
  · rw [countP_append, countP_append, repFree_countP a ha,
      countP_filter_not isRepItemSdt b, clonesList_countP name tmpl htm items]
    omega

/-- C1 witness: a document holding the `items1` section with one template row
is expanded to two rows for a two-item list, with change count 2. -/
theorem C1_duplicate_repeating_section_witness :
    duplicate_repeating_section (.wellFormed docItems1) "items1" [itemA, itemB] =
      (.wellFormed (Elem.mk "w:document" [] none (ElemList.cons (Elem.mk wSdt [] none
        (ElemList.cons prItems1 (ElemList.cons (Elem.mk wSdtContent [] none
          (clonesList "items1" [itemA, itemB] tmplRow)) ElemList.nil))) ElemList.nil)),
        2) ∧
    (clonesList "items1" [itemA, itemB] tmplRow).countP isRepItemSdt = 2 := by
  have h := C1_duplicate_repeating_section "items1" [itemA, itemB] "w:document" [] none
    .nil .nil [] none prItems1 [] none .nil .nil tmplRow
    (by decide) rfl (by decide) rfl rfl (by decide) rfl (by decide)
  exact ⟨h.1, h.2⟩

/-! ## Step equations and lemmas for the main pass (C3, C8) -/

theorem visitE_eq (m : List (String × String)) (d : QuotationData) (inside : Bool)
    (p : List Nat) (tg : String) (a : List (String × String)) (x : Option String)
    (cs : ElemList) (s : PassState) :
    visitE m d inside p (.mk tg a x cs) s =
      visitL m d (inside || isRepMarkedSdt (.mk tg a x cs)) p 0 cs
        (if tg = wSdt then
          handleSdt m d (inside || isRepMarkedSdt (.mk tg a x cs)) p (.mk tg a x cs) s
        else s) := rfl

theorem visitL_nil (m : List (String × String)) (d : QuotationData) (inside : Bool)
    (p : List Nat) (i : Nat) (s : PassState) : visitL m d inside p i .nil s = s := rfl

theorem visitL_cons (m : List (String × String)) (d : QuotationData) (inside : Bool)
    (p : List Nat) (i : Nat) (c : Elem) (cs : ElemList) (s : PassState) :
    visitL m d inside p i (.cons c cs) s =
      visitL m d inside p (i + 1) cs (visitE m d inside (p ++ [i]) c s) := rfl

mutual
theorem visitE_sdtFree (m : List (String × String)) (d : QuotationData) :
    (e : Elem) → hasTagInTree wSdt e = false →
      ∀ inside p s, visitE m d inside p e s = s
  | .mk tg a x cs, h, inside, p, s => by
      unfold hasTagInTree at h
      rw [Bool.or_eq_false_iff] at h
      rw [visitE_eq, if_neg (of_decide_eq_false h.1)]
      exact visitL_sdtFree m d cs h.2 _ p 0 s

theorem visitL_sdtFree (m : List (String × String)) (d : QuotationData) :
    (l : ElemList) → hasTagInTreeL wSdt l = false →
      ∀ inside p i s, visitL m d inside p i l s = s
  | .nil, _, _, _, _, _ => rfl
  | .cons c cs, h, inside, p, i, s => by
      unfold hasTagInTreeL at h
      rw [Bool.or_eq_false_iff] at h
      rw [visitL_cons, visitE_sdtFree m d c h.1 inside (p ++ [i]) s]
      exact visitL_sdtFree m d cs h.2 inside p (i + 1) s
end

mutual
theorem allTexts_length : (e : Elem) → (allTexts e).length = countT e
  | .mk tg a x cs => by
      unfold allTexts countT
      by_cases h : tg = wT <;> simp [h, allTextsL_length cs] <;> omega

theorem allTextsL_length : (l : ElemList) → (allTextsL l).length = countTL l
  | .nil => rfl
  | .cons c cs => by
      unfold allTextsL countTL
      simp [allTexts_length c, allTextsL_length cs]
end

mutual
theorem allTexts_clear : (e : Elem) →
    allTexts (clearAllT e) = List.replicate (countT e) (some "")
  | .mk tg a x cs => by
      by_cases h : tg = wT
      · show ((if tg = wT then [if tg = wT then some "" else x] else []) ++
          allTextsL (clearAllTL cs)) =
            List.replicate ((if tg = wT then 1 else 0) + countTL cs) (some "")
        simp only [if_pos h, allTextsL_clear cs]
        show some "" :: List.replicate (countTL cs) (some "") =
          List.replicate (1 + countTL cs) (some "")
        rw [Nat.add_comm, List.replicate_succ]
      · show ((if tg = wT then [if tg = wT then some "" else x] else []) ++
          allTextsL (clearAllTL cs)) =
            List.replicate ((if tg = wT then 1 else 0) + countTL cs) (some "")
        simp only [if_neg h, List.nil_append, allTextsL_clear cs, Nat.zero_add]

theorem allTextsL_clear : (l : ElemList) →
    allTextsL (clearAllTL l) = List.replicate (countTL l) (some "")
  | .nil => rfl
  | .cons c cs => by
      show allTexts (clearAllT c) ++ allTextsL (clearAllTL cs) =
        List.replicate (countT c + countTL cs) (some "")
      rw [allTexts_clear c, allTextsL_clear cs, List.replicate_add]
end

mutual
theorem allTexts_setFirst (v : String) : (e : Elem) → countT e ≠ 0 →
    allTexts (setFirstT v e) = some v :: (allTexts e).tail
  | .mk tg a x cs, h => by
      by_cases ht : tg = wT
      · have h1 : setFirstT v (.mk tg a x cs) = .mk tg a (some v) cs := by
          show (if tg = wT then Elem.mk tg a (some v) cs
            else Elem.mk tg a x (setFirstTL v cs)) = _
          rw [if_pos ht]
        rw [h1]
        show ((if tg = wT then [some v] else []) ++ allTextsL cs) =
          some v :: ((if tg = wT then [x] else []) ++ allTextsL cs).tail
        rw [if_pos ht, if_pos ht]
        rfl
      · have h1 : setFirstT v (.mk tg a x cs) = .mk tg a x (setFirstTL v cs) := by
          show (if tg = wT then Elem.mk tg a (some v) cs
            else Elem.mk tg a x (setFirstTL v cs)) = _
          rw [if_neg ht]
        rw [h1]
        have h2 : countTL cs ≠ 0 := by
          have hh : countT (.mk tg a x cs) = (if tg = wT then 1 else 0) + countTL cs := rfl
          rw [hh, if_neg ht] at h
          omega
        show ((if tg = wT then [x] else []) ++ allTextsL (setFirstTL v cs)) =
          some v :: ((if tg = wT then [x] else []) ++ allTextsL cs).tail
        rw [if_neg ht]
        simp only [List.nil_append]
        exact allTextsL_setFirst v cs h2

theorem allTextsL_setFirst (v : String) : (l : ElemList) → countTL l ≠ 0 →
    allTextsL (setFirstTL v l) = some v :: (allTextsL l).tail
  | .nil, h => absurd rfl h
  | .cons c cs, h => by
      have hsum : countT c + countTL cs ≠ 0 := by
        have hh : countTL (.cons c cs) = countT c + countTL cs := rfl
        rw [hh] at h
        exact h
      by_cases hc : countT c = 0
      · have hcs : countTL cs ≠ 0 := by omega
        have hA : allTexts c = [] := by
          have hl := allTexts_length c
          rw [hc] at hl
          exact List.length_eq_zero.mp hl
        have hhc : hasT c = false := by simp [hasT, hc]
        have hstep : setFirstTL v (.cons c cs) = .cons c (setFirstTL v cs) := by
          show (if hasT c then ElemList.cons (setFirstT v c) cs
            else ElemList.cons c (setFirstTL v cs)) = _
          rw [hhc]
          simp
        rw [hstep]
        show allTexts c ++ allTextsL (setFirstTL v cs) =
          some v :: (allTexts c ++ allTextsL cs).tail
        rw [hA, allTextsL_setFirst v cs hcs]
        simp
      · have hhc : hasT c = true := by simp [hasT, hc]
        have hstep : setFirstTL v (.cons c cs) = .cons (setFirstT v c) cs := by
          show (if hasT c then ElemList.cons (setFirstT v c) cs
            else ElemList.cons c (setFirstTL v cs)) = _
          rw [hhc]
          simp
        rw [hstep]
        show allTexts (setFirstT v c) ++ allTextsL cs =
          some v :: (allTexts c ++ allTextsL cs).tail
        rw [allTexts_setFirst v c hc]
        cases hA : allTexts c with
        | nil =>
            exfalso
            have hl := allTexts_length c
            rw [hA] at hl
            exact hc hl.symm
        | cons y A => simp [hA]
end

theorem allTexts_clearSet (v : String) (c : Elem) (h : hasT c = true) :
    allTexts (clearSetF v c) = some v :: List.replicate (countT c - 1) (some "") := by
  unfold clearSetF
  have hc : countT c ≠ 0 := by simpa [hasT] using h
  have h1 : countT (clearAllT c) ≠ 0 := by
    have hl := allTexts_length (clearAllT c)
    rw [allTexts_clear] at hl
    simp only [List.length_replicate] at hl
    omega
  rw [allTexts_setFirst v (clearAllT c) h1, allTexts_clear]
  cases hn : countT c with
  | zero => omega
  | succ n => simp [List.replicate_succ]

theorem pcc_wellFormed (m : List (String × String)) (d : QuotationData) (root : Elem)
    (h : process_repeating_sections (.wellFormed root) d = (.wellFormed root, 0)) :
    process_content_controls_xml (.wellFormed root) m d =
      (.wellFormed (applyOps (visitE m d false [] root ⟨[], 0, []⟩).ops root),
        (visitE m d false [] root ⟨[], 0, []⟩).changes) := by
  unfold process_content_controls_xml
  rw [h]
  simp

/-! ## C3 -/

/-- C3: a named content control whose resolved name has a non-`None`
replacement value is overwritten: every `w:t` under its sdtContent is set to
the empty string with the first one set to the value, a fresh
paragraph/run/text subtree is created when no `w:t` exists, and the change
counter rises by one.  (Family: a document holding one such control, with no
further SDT nested inside it, processed with empty cost lists so that the
repeating-section step is inert.) -/
theorem C3_control_overwrite (m : List (String × String)) (d : QuotationData)
    (rA : List (String × String)) (rT : Option String)
    (eA : List (String × String)) (eT : Option String)
    (prS : Elem) (cA : List (String × String)) (cT : Option String) (cc : ElemList)
    (nm v : String)
    (hot : d.oneTimeCosts = []) (hrc : d.recurringCosts = [])
    (hprS : prS.tag = wSdtPr)
    (hname : effectiveName prS = some nm)
    (hmark : isRepMarkedSdt (.mk wSdt eA eT
      (.cons prS (.cons (.mk wSdtContent cA cT cc) .nil))) = false)
    (hprfree : hasTagInTree wSdt prS = false)
    (hccfree : hasTagInTreeL wSdt cc = false)
    (hv : get_contextual_value nm 1 m d = some v) :
    process_content_controls_xml
        (.wellFormed (.mk "w:document" rA rT (.cons (.mk wSdt eA eT
          (.cons prS (.cons (.mk wSdtContent cA cT cc) .nil))) .nil))) m d =
      (.wellFormed (.mk "w:document" rA rT (.cons (.mk wSdt eA eT
        (.cons prS (.cons (if hasT (.mk wSdtContent cA cT cc)
          then clearSetF v (.mk wSdtContent cA cT cc)
          else appendChild (.mk wSdtContent cA cT cc) (prtElem v)) .nil))) .nil)), 1) ∧
    (hasT (.mk wSdtContent cA cT cc) = true →
      allTexts (if hasT (.mk wSdtContent cA cT cc)
          then clearSetF v (.mk wSdtContent cA cT cc)
          else appendChild (.mk wSdtContent cA cT cc) (prtElem v)) =
        some v :: List.replicate (countT (.mk wSdtContent cA cT cc) - 1) (some "")) ∧
    (hasT (.mk wSdtContent cA cT cc) = false →
      (if hasT (.mk wSdtContent cA cT cc)
          then clearSetF v (.mk wSdtContent cA cT cc)
          else appendChild (.mk wSdtContent cA cT cc) (prtElem v)) =
        .mk wSdtContent cA cT (cc.append (.cons (prtElem v) .nil))) := by
  have hne1 : ¬ (wSdtPr = wSdtContent) := by decide
  have hfpr : Elem.findChild (.mk wSdt eA eT
      (.cons prS (.cons (.mk wSdtContent cA cT cc) .nil))) wSdtPr = some prS := by
    show (if prS.tag = wSdtPr then some prS
      else findChildL wSdtPr (.cons (.mk wSdtContent cA cT cc) .nil)) = some prS
    rw [hprS, if_pos rfl]
  have hidx : findChildIdxL wSdtContent 0
      (.cons prS (.cons (.mk wSdtContent cA cT cc) .nil)) =
      some (1, .mk wSdtContent cA cT cc) := by
    show (if prS.tag = wSdtContent then some (0, prS)
      else findChildIdxL wSdtContent 1 (.cons (.mk wSdtContent cA cT cc) .nil)) = _
    rw [hprS, if_neg hne1]
    show (if (Elem.mk wSdtContent cA cT cc).tag = wSdtContent
      then some (1, Elem.mk wSdtContent cA cT cc)
      else findChildIdxL wSdtContent 2 .nil) = some (1, Elem.mk wSdtContent cA cT cc)
    rw [if_pos (show (Elem.mk wSdtContent cA cT cc).tag = wSdtContent from rfl)]
  have hstep : handleSdt m d false [0]
      (.mk wSdt eA eT (.cons prS (.cons (.mk wSdtContent cA cT cc) .nil))) ⟨[], 0, []⟩ =
      ⟨[(nm, 1)], 1, [if hasT (.mk wSdtContent cA cT cc)
        then Op.clearSet [0, 1] v else Op.create [0, 1] v]⟩ := by
    simp only [handleSdt, hfpr, hname, Bool.false_and, Bool.false_eq_true, if_false,
      bumpInstance, Elem.children, hv, hidx]
    rfl
  have hvis : visitE m d false []
      (.mk "w:document" rA rT (.cons (.mk wSdt eA eT
        (.cons prS (.cons (.mk wSdtContent cA cT cc) .nil))) .nil)) ⟨[], 0, []⟩ =
      ⟨[(nm, 1)], 1, [if hasT (.mk wSdtContent cA cT cc)
        then Op.clearSet [0, 1] v else Op.create [0, 1] v]⟩ := by
    rw [visitE_eq]
    rw [if_neg (by decide : ¬ ("w:document" = wSdt))]
    have hmark0 : isRepMarkedSdt (.mk "w:document" rA rT (.cons (.mk wSdt eA eT
        (.cons prS (.cons (.mk wSdtContent cA cT cc) .nil))) .nil)) = false := by
      unfold isRepMarkedSdt
      simp [Elem.tag]
      exact fun h => absurd h (by decide)
    rw [hmark0]
    simp only [Bool.or_false]
    rw [visitL_cons]
    rw [visitE_eq]
    rw [hmark]
    simp only [Bool.or_false, eq_self_iff_true, if_true]
    have h0 : ([] : List Nat) ++ [0] = [0] := rfl
    rw [h0, hstep]
    rw [visitL_cons]
    rw [visitE_sdtFree m d prS hprfree]
    rw [visitL_cons]
    have hcfree : hasTagInTree wSdt (.mk wSdtContent cA cT cc) = false := by
      unfold hasTagInTree
      rw [hccfree]
      simp only [Bool.or_false]
      exact decide_eq_false (by decide)
    rw [visitE_sdtFree m d _ hcfree]
    rw [visitL_nil, visitL_nil]
  have hprs : process_repeating_sections
      (.wellFormed (.mk "w:document" rA rT (.cons (.mk wSdt eA eT
        (.cons prS (.cons (.mk wSdtContent cA cT cc) .nil))) .nil))) d =
      ((.wellFormed (.mk "w:document" rA rT (.cons (.mk wSdt eA eT
        (.cons prS (.cons (.mk wSdtContent cA cT cc) .nil))) .nil))), 0) := by
    simp [process_repeating_sections, hot, hrc]
  refine ⟨?_, ?_, ?_⟩
  · rw [pcc_wellFormed m d _ hprs, hvis]
    show (XmlDoc.wellFormed (applyOps [if hasT (.mk wSdtContent cA cT cc)
      then Op.clearSet [0, 1] v else Op.create [0, 1] v] _), 1) = _
    by_cases hh : hasT (.mk wSdtContent cA cT cc) = true
    · rw [hh]
      simp only [if_true]
      rfl
    · rw [Bool.not_eq_true] at hh
      rw [hh]
      simp only [Bool.false_eq_true, if_false]
      rfl
  · intro hh
    rw [hh]
    simp only [if_true]
    exact allTexts_clearSet v _ hh
  · intro hh
    rw [hh]
    simp only [Bool.false_eq_true, if_false]
    rfl

/-- C3 witness: the `clientname` control holding one text run `"old"` is
overwritten with `"ACME"` and the change count is 1. -/
theorem C3_control_overwrite_witness :
    process_content_controls_xml (.wellFormed docClient) mClient dataEmpty =
      (.wellFormed (.mk "w:document" [] none (.cons (.mk wSdt [] none
        (.cons prClientName (.cons (clearSetF "ACME" (.mk wSdtContent [] none
          (.cons (tTextEl "old") .nil))) .nil))) .nil)), 1) ∧
    allTexts (clearSetF "ACME" (.mk wSdtContent [] none (.cons (tTextEl "old") .nil))) =
      [some "ACME"] := by
  have h := C3_control_overwrite mClient dataEmpty [] none [] none prClientName [] none
    (.cons (tTextEl "old") .nil) "clientname" "ACME" rfl rfl rfl rfl rfl rfl rfl rfl
  exact ⟨h.1, h.2.1 rfl⟩

/-! ## C8 -/

/-- C8: the six row controls are mapped by instance number: `Module`/`Aantal`
take the first one-time cost at instance 1, the first recurring cost at
instance 2, and the empty string later; `éénmalige setupkost`/`calctotaalsetup`
are filled only at instance 1 from the first one-time cost and
`Jaarlijks`/`calctotaaljaarlijks` only at instance 2 from the first recurring
cost, defaulting to `€0.00` otherwise; and a row control inside a
`w15` repeating-section item is skipped entirely by the generic pass (its
state — instance counts, change counter, pending mutations — is untouched). -/
theorem C8_contextual_row_values (m : List (String × String)) (d : QuotationData)
    (i j : Item) (l l' : List Item) (k : Nat) (nm : String) (p : List Nat)
    (e pr : Elem) (s : PassState) :
    (d.oneTimeCosts = i :: l → get_contextual_value "Module" 1 m d = some i.material) ∧
    (d.recurringCosts = j :: l' → get_contextual_value "Module" 2 m d = some j.material) ∧
    (3 ≤ k → get_contextual_value "Module" k m d = some "") ∧
    (d.oneTimeCosts = i :: l →
      get_contextual_value "Aantal" 1 m d = some (toString i.quantity)) ∧
    (d.recurringCosts = j :: l' →
      get_contextual_value "Aantal" 2 m d = some (toString j.quantity)) ∧
    (3 ≤ k → get_contextual_value "Aantal" k m d = some "") ∧
    (d.oneTimeCosts = i :: l →
      get_contextual_value "éénmalige setupkost" 1 m d = some (euroStr i.unitPrice)) ∧
    (k ≠ 1 → get_contextual_value "éénmalige setupkost" k m d = some "€0.00") ∧
    (d.oneTimeCosts = i :: l →
      get_contextual_value "calctotaalsetup" 1 m d =
        some (euroStr ((i.quantity : ℚ) * i.unitPrice))) ∧
    (k ≠ 1 → get_contextual_value "calctotaalsetup" k m d = some "€0.00") ∧
    (d.recurringCosts = j :: l' →
      get_contextual_value "Jaarlijks" 2 m d = some (euroStr j.unitPrice)) ∧
    (k ≠ 2 → get_contextual_value "Jaarlijks" k m d = some "€0.00") ∧
    (d.recurringCosts = j :: l' →
      get_contextual_value "calctotaaljaarlijks" 2 m d =
        some (euroStr ((j.quantity : ℚ) * j.unitPrice))) ∧
    (k ≠ 2 → get_contextual_value "calctotaaljaarlijks" k m d = some "€0.00") ∧
    (e.findChild wSdtPr = some pr → effectiveName pr = some nm →
      rowFields.contains nm = true → handleSdt m d true p e s = s) := by
  refine ⟨?_, ?_, ?_, ?_, ?_, ?_, ?_, ?_, ?_, ?_, ?_, ?_, ?_, ?_, ?_⟩
  · intro h
    simp [get_contextual_value, h]
  · intro h
    simp [get_contextual_value, h]
  · intro hk
    have h1 : k ≠ 1 := by omega
    have h2 : k ≠ 2 := by omega
    simp [get_contextual_value, h1, h2]
  · intro h
    simp [get_contextual_value, h]
  · intro h
    simp [get_contextual_value, h]
  · intro hk
    have h1 : k ≠ 1 := by omega
    have h2 : k ≠ 2 := by omega
    simp [get_contextual_value, h1, h2]
  · intro h
    simp [get_contextual_value, euroStr, h]
  · intro hk
    simp [get_contextual_value, hk]
  · intro h
    simp [get_contextual_value, euroStr, h]
  · intro hk
    simp [get_contextual_value, hk]
  · intro h
    simp [get_contextual_value, euroStr, h]
  · intro hk
    simp [get_contextual_value, hk]
  · intro h
    simp [get_contextual_value, euroStr, h]
  · intro hk
    simp [get_contextual_value, hk]
  · intro h1 h2 h3
    simp only [handleSdt, h1, h2, Bool.true_and, h3, eq_self_iff_true, if_true]

/-- C8 witness: with one one-time and one recurring cost item, instance 1 of
`Module` shows the one-time material, a late instance shows the empty string,
`éénmalige setupkost` defaults to `€0.00` away from instance 1, and a
`Module` control inside a repeating section leaves the pass state untouched. -/
theorem C8_contextual_row_values_witness :
    get_contextual_value "Module" 1 mClient dataAB = some "Setup" ∧
    get_contextual_value "Module" 7 mClient dataAB = some "" ∧
    get_contextual_value "éénmalige setupkost" 2 mClient dataAB = some "€0.00" ∧
    handleSdt mClient dataAB true [0] (leafControl "Module" "x") ⟨[], 0, []⟩ =
      ⟨[], 0, []⟩ := by
  have h := C8_contextual_row_values mClient dataAB itemA itemB [] [] 7 "Module" [0]
    (leafControl "Module" "x")
    (.mk wSdtPr [] none (.cons (.mk wTagEl [(wVal, "Module")] none .nil) .nil)) ⟨[], 0, []⟩
  have h2 := C8_contextual_row_values mClient dataAB itemA itemB [] [] 2 "Module" [0]
    (leafControl "Module" "x")
    (.mk wSdtPr [] none (.cons (.mk wTagEl [(wVal, "Module")] none .nil) .nil)) ⟨[], 0, []⟩
  refine ⟨h.1 rfl, h.2.2.1 (by omega), h2.2.2.2.2.2.2.2.1 (by omega), ?_⟩
  exact h.2.2.2.2.2.2.2.2.2.2.2.2.2.2 rfl rfl rfl

/-! ## C9 -/

/-- C9: the per-row total written into a cloned repeating row is
`quantity × unitPrice` (the item's own `total` field is ignored), while every
aggregate of `calculate_values` sums the supplied `total` fields; on an item
with `quantity = 2`, `unitPrice = 5`, `total = 100` the row shows `€10.00`
while the one-time aggregate is `100` (formatted `€100.00`) — mutually
inconsistent. -/
theorem C9_row_total_vs_aggregates :
    (∀ d : QuotationData,
      (calculate_values d).one_time_total = (d.oneTimeCosts.map (fun i => i.total)).sum ∧
      (calculate_values d).recurring_total =
        (d.recurringCosts.map (fun i => i.total)).sum ∧
      (calculate_values d).total_excl_vat =
        (calculate_values d).one_time_total + (calculate_values d).recurring_total ∧
      (calculate_values d).vat_amount = (calculate_values d).total_excl_vat * (21 / 100) ∧
      (calculate_values d).grand_total =
        (calculate_values d).total_excl_vat + (calculate_values d).vat_amount) ∧
    readControlValue "calctotaalsetup" (patchClone "items1" tmplRow itemBad) =
      some (euroStr ((itemBad.quantity : ℚ) * itemBad.unitPrice)) ∧
    euroStr ((itemBad.quantity : ℚ) * itemBad.unitPrice) = "€10.00" ∧
    itemBad.total = 100 ∧
    (calculate_values dataBad).one_time_total = 100 ∧
    euroStr (calculate_values dataBad).one_time_total = "€100.00" ∧
    ("€10.00" : String) ≠ "€100.00" := by
  have h10 : ((itemBad.quantity : ℚ) * itemBad.unitPrice) = 10 := by
    norm_num [itemBad]
  have h100 : (calculate_values dataBad).one_time_total = 100 := by
    norm_num [calculate_values, dataBad, itemBad]
  refine ⟨fun d => ⟨rfl, rfl, rfl, rfl, rfl⟩, ?_, ?_, rfl, h100, ?_, ?_⟩
  · rfl
  · rw [h10]
    rfl
  · rw [h100]
    rfl
  · decide
